import Mathlib

/-!
# Verification of `scripts/oldump.py` (Open Library dump pipeline)

This file gives a shallow embedding of the dump-pipeline orchestration script
`scripts/oldump.py` and settles the frozen claims about it.

The file has three layers:

1. A model of the Latest-Version Reducer (the `dump` stage).  The reducer
   itself lives in `openlibrary/data/dump.py`, which is not part of the
   sources at hand, so it is modelled from the specification (see the doc
   comment on `generate_dump`).
2. A state-transition model of the shell pipeline embedded (as a raw string,
   lines 54-229) in `scripts/oldump.py`: artifact existence flags, the
   `compgen`-glob skip checks, `cleanup`, `archive_dumps`, the archival
   guard, the sitemap block and the final (comment-only) cleanup block.
3. A model of the Python entry point of `scripts/oldump.py` itself.  The
   module as written does not parse (line 277 has a conditional expression
   missing `if`; line 282 is a truncated `if args.use_existing and`), so
   CPython raises `SyntaxError` at import time and no statement of the
   module ever executes.
-/

namespace OLDump

/-! ## Layer 1: History Entries and the Latest-Version Reducer -/

/-- A History Entry: one revision of one record, as produced by the History
Compiler (`cdump`).  The structural fields are `key` (stable unique id),
`revision` (monotonically increasing per key), `deleted` and `type`; the
business payload is opaque. -/
structure Entry where
  key : String
  revision : Nat
  deleted : Bool
  type : String
  payload : String
deriving DecidableEq, Repr

/-- Strict (key, revision) ordering of History Entries: the order the
External Sorter establishes on its output stream. -/
def entryLt (a b : Entry) : Prop :=
  a.key < b.key ∨ (a.key = b.key ∧ a.revision < b.revision)

instance : DecidableRel entryLt := fun a b =>
  decidable_of_iff (a.key.toList < b.key.toList ∨ (a.key = b.key ∧ a.revision < b.revision))
    (by rw [← String.lt_iff_toList_lt]; exact Iff.rfl)

/-- A stream is sorted when adjacent entries are in strict (key, revision)
order.  Within one run-date dump each (key, revision) pair occurs once, so
the sorter's output satisfies the strict form. -/
def SortedEntries (es : List Entry) : Prop :=
  es.Chain' entryLt

/-- Executable sortedness check, used only to evaluate `SortedEntries` on
concrete streams. -/
def sortedB : List Entry → Bool
  | [] => true
  | [_] => true
  | a :: b :: es => decide (entryLt a b) && sortedB (b :: es)

theorem sortedB_iff : ∀ es : List Entry, SortedEntries es ↔ sortedB es = true
  | [] => by simp [SortedEntries, sortedB]
  | [_] => by simp [SortedEntries, sortedB]
  | a :: b :: es => by
      rw [SortedEntries, List.chain'_cons, sortedB, Bool.and_eq_true, decide_eq_true_iff]
      exact and_congr Iff.rfl (sortedB_iff (b :: es))

instance (es : List Entry) : Decidable (SortedEntries es) :=
  decidable_of_iff _ (sortedB_iff es).symm

/-- Emit a finished group's winner, unless it is marked deleted. -/
def emit (w : Entry) : List Entry :=
  if w.deleted then [] else [w]

/-- One scan step of the Latest-Version Reducer: `w` is the current winner
of the group being accumulated.  On a same-key entry the winner is replaced
when its revision is at least the current one (ties broken by latest input
position); on a key change the finished group's winner is emitted unless it
is deleted. -/
def dumpStep : Entry → List Entry → List Entry
  | w, [] => emit w
  | w, e :: es =>
      if e.key = w.key then
        dumpStep (if w.revision ≤ e.revision then e else w) es
      else
        emit w ++ dumpStep e es

/-- Modelled from the spec: the Latest-Version Reducer (the `dump` stage of
`openlibrary/data/dump.py`, which is not among the sources at hand).  Per
spec §4.4 it scans the sorted History Entry stream sequentially, accumulates
the entries of the current key, and on key change emits the group's
maximum-revision entry (ties broken by latest input position) unless that
entry is marked deleted. -/
def generate_dump : List Entry → List Entry
  | [] => []
  | e :: es => dumpStep e es

/-- Transitivity of the sorter's strict order. -/
theorem entryLt_trans : ∀ {a b c : Entry}, entryLt a b → entryLt b c → entryLt a c := by
  intro a b c hab hbc
  rcases hab with h₁ | ⟨h₁, h₂⟩ <;> rcases hbc with h₃ | ⟨h₃, h₄⟩
  · exact Or.inl (lt_trans h₁ h₃)
  · exact Or.inl (h₃ ▸ h₁)
  · exact Or.inl (h₁ ▸ h₃)
  · exact Or.inr ⟨h₁.trans h₃, lt_trans h₂ h₄⟩

instance : IsTrans Entry entryLt := ⟨fun _ _ _ => entryLt_trans⟩

/-- A sorted chain is pairwise ordered. -/
theorem sorted_pairwise {es : List Entry} (h : SortedEntries es) :
    es.Pairwise entryLt :=
  List.chain'_iff_pairwise.mp h

theorem mem_emit {w r : Entry} (h : r ∈ emit w) : r = w ∧ w.deleted = false := by
  unfold emit at h
  by_cases hd : w.deleted = true
  · rw [if_pos hd] at h; cases h
  · rw [if_neg hd] at h
    exact ⟨List.mem_singleton.mp h, Bool.not_eq_true _ ▸ hd⟩

theorem self_mem_emit {w : Entry} (h : w.deleted = false) : w ∈ emit w := by
  unfold emit
  rw [h]
  simp

/-- Every reducer output row is one of the scanned entries. -/
theorem dumpStep_mem :
    ∀ (es : List Entry) (w r : Entry), r ∈ dumpStep w es → r ∈ w :: es := by
  intro es
  induction es with
  | nil =>
      intro w r hr
      rw [dumpStep] at hr
      exact List.mem_singleton.mpr (mem_emit hr).1
  | cons e es ih =>
      intro w r hr
      rw [dumpStep] at hr
      by_cases hk : e.key = w.key
      · rw [if_pos hk] at hr
        have h := ih _ r hr
        rcases List.mem_cons.mp h with h | h
        · by_cases hle : w.revision ≤ e.revision
          · rw [if_pos hle] at h
            exact h ▸ List.mem_cons_of_mem _ (List.mem_cons_self _ _)
          · rw [if_neg hle] at h
            exact h ▸ List.mem_cons_self _ _
        · exact List.mem_cons_of_mem _ (List.mem_cons_of_mem _ h)
      · rw [if_neg hk] at hr
        rcases List.mem_append.mp hr with h | h
        · exact List.mem_cons.mpr (Or.inl (mem_emit h).1)
        · exact List.mem_cons_of_mem _ (ih e r h)

/-- No reducer output row is marked deleted. -/
theorem dumpStep_not_deleted :
    ∀ (es : List Entry) (w r : Entry), r ∈ dumpStep w es → r.deleted = false := by
  intro es
  induction es with
  | nil =>
      intro w r hr
      rw [dumpStep] at hr
      have h := mem_emit hr
      exact h.1 ▸ h.2
  | cons e es ih =>
      intro w r hr
      rw [dumpStep] at hr
      by_cases hk : e.key = w.key
      · rw [if_pos hk] at hr
        exact ih _ r hr
      · rw [if_neg hk] at hr
        rcases List.mem_append.mp hr with h | h
        · have h := mem_emit h
          exact h.1 ▸ h.2
        · exact ih e r h

/-- On sorted input, a same-key step always replaces the winner with the
later entry (its revision is strictly larger). -/
theorem dumpStep_cons_same {w e : Entry} {es : List Entry}
    (hlt : entryLt w e) (hk : e.key = w.key) :
    dumpStep w (e :: es) = dumpStep e es := by
  rw [dumpStep, if_pos hk]
  rcases hlt with h | ⟨_, hrev⟩
  · exact absurd (hk ▸ h) (lt_irrefl _)
  · rw [if_pos (le_of_lt hrev)]

theorem entryLt_key_lt {w e : Entry} (hlt : entryLt w e) (hk : ¬ e.key = w.key) :
    w.key < e.key := by
  rcases hlt with h | ⟨h, _⟩
  · exact h
  · exact absurd h.symm hk

/-- Every output row's key is at least the current winner's key. -/
theorem dumpStep_key_le :
    ∀ (es : List Entry) (w : Entry), (w :: es).Chain' entryLt →
      ∀ r ∈ dumpStep w es, w.key ≤ r.key := by
  intro es
  induction es with
  | nil =>
      intro w _ r hr
      rw [dumpStep] at hr
      rw [(mem_emit hr).1]
  | cons e es ih =>
      intro w hch r hr
      obtain ⟨hwe, hch2⟩ := List.chain'_cons.mp hch
      by_cases hk : e.key = w.key
      · rw [dumpStep_cons_same hwe hk] at hr
        exact hk ▸ ih e hch2 r hr
      · rw [dumpStep, if_neg hk] at hr
        rcases List.mem_append.mp hr with h | h
        · rw [(mem_emit h).1]
        · exact le_of_lt (lt_of_lt_of_le (entryLt_key_lt hwe hk) (ih e hch2 r h))

/-- Output keys are strictly increasing, hence pairwise distinct. -/
theorem dumpStep_keys_sorted :
    ∀ (es : List Entry) (w : Entry), (w :: es).Chain' entryLt →
      (dumpStep w es).Pairwise (fun r s => r.key < s.key) := by
  intro es
  induction es with
  | nil =>
      intro w _
      rw [dumpStep]
      unfold emit
      split <;> simp
  | cons e es ih =>
      intro w hch
      obtain ⟨hwe, hch2⟩ := List.chain'_cons.mp hch
      by_cases hk : e.key = w.key
      · rw [dumpStep_cons_same hwe hk]
        exact ih e hch2
      · rw [dumpStep, if_neg hk]
        refine List.pairwise_append.mpr ⟨?_, ih e hch2, ?_⟩
        · unfold emit; split <;> simp
        · intro x hx y hy
          rw [(mem_emit hx).1]
          exact lt_of_lt_of_le (entryLt_key_lt hwe hk) (dumpStep_key_le es e hch2 y hy)

/-- Every output row carries the maximum revision among the same-key
entries of the scanned stream. -/
theorem dumpStep_max :
    ∀ (es : List Entry) (w : Entry), (w :: es).Chain' entryLt →
      ∀ r ∈ dumpStep w es, ∀ x ∈ w :: es, x.key = r.key → x.revision ≤ r.revision := by
  intro es
  induction es with
  | nil =>
      intro w _ r hr x hx hkey
      rw [dumpStep] at hr
      obtain ⟨hrw, _⟩ := mem_emit hr
      have hxw : x = w := by
        rcases List.mem_cons.mp hx with h | h
        · exact h
        · cases h
      rw [hxw, hrw]
  | cons e es ih =>
      intro w hch r hr x hx hkey
      obtain ⟨hwe, hch2⟩ := List.chain'_cons.mp hch
      by_cases hk : e.key = w.key
      · rw [dumpStep_cons_same hwe hk] at hr
        rcases List.mem_cons.mp hx with hxw | hx2
        · subst hxw
          have hrev : x.revision < e.revision := by
            rcases hwe with h | ⟨_, h⟩
            · exact absurd (hk ▸ h) (lt_irrefl _)
            · exact h
          have he_le : e.revision ≤ r.revision :=
            ih e hch2 r hr e (List.mem_cons_self _ _) (hk.trans hkey)
          exact le_of_lt (lt_of_lt_of_le hrev he_le)
        · exact ih e hch2 r hr x hx2 hkey
      · have hw_lt : w.key < e.key := entryLt_key_lt hwe hk
        rw [dumpStep, if_neg hk] at hr
        rcases List.mem_append.mp hr with hremit | hr2
        · obtain ⟨hrw, _⟩ := mem_emit hremit
          subst hrw
          rcases List.mem_cons.mp hx with hxw | hx2
          · rw [hxw]
          · exfalso
            have hex : e.key ≤ x.key := by
              rcases List.mem_cons.mp hx2 with h | h
              · rw [h]
              · have hpw := List.chain'_iff_pairwise.mp hch2
                rcases List.rel_of_pairwise_cons hpw h with h2 | ⟨h2, _⟩
                · exact le_of_lt h2
                · exact le_of_eq h2
            have : r.key < x.key := lt_of_lt_of_le hw_lt hex
            exact absurd hkey (ne_of_gt this)
        · rcases List.mem_cons.mp hx with hxw | hx2
          · exfalso
            subst hxw
            have : x.key < r.key :=
              lt_of_lt_of_le hw_lt (dumpStep_key_le es e hch2 r hr2)
            exact absurd hkey (ne_of_lt this)
          · exact ih e hch2 r hr2 x hx2 hkey

/-- Completeness: a non-deleted entry of maximum revision within its key
group is emitted. -/
theorem dumpStep_complete :
    ∀ (es : List Entry) (w : Entry), (w :: es).Chain' entryLt →
      ∀ x ∈ w :: es, x.deleted = false →
        (∀ y ∈ w :: es, y.key = x.key → y.revision ≤ x.revision) →
        x ∈ dumpStep w es := by
  intro es
  induction es with
  | nil =>
      intro w _ x hx hdel _
      rw [dumpStep]
      have hxw : x = w := by
        rcases List.mem_cons.mp hx with h | h
        · exact h
        · cases h
      subst hxw
      exact self_mem_emit hdel
  | cons e es ih =>
      intro w hch x hx hdel hmax
      obtain ⟨hwe, hch2⟩ := List.chain'_cons.mp hch
      by_cases hk : e.key = w.key
      · rw [dumpStep_cons_same hwe hk]
        have hxne : x ≠ w := by
          intro h
          subst h
          have hrev : x.revision < e.revision := by
            rcases hwe with h2 | ⟨_, h2⟩
            · exact absurd (hk ▸ h2) (lt_irrefl _)
            · exact h2
          have := hmax e (List.mem_cons_of_mem _ (List.mem_cons_self _ _)) hk
          omega
        have hx2 : x ∈ e :: es := by
          rcases List.mem_cons.mp hx with h | h
          · exact absurd h hxne
          · exact h
        exact ih e hch2 x hx2 hdel
          (fun y hy hykey => hmax y (List.mem_cons_of_mem _ hy) hykey)
      · rw [dumpStep, if_neg hk]
        rcases List.mem_cons.mp hx with hxw | hx2
        · subst hxw
          exact List.mem_append.mpr (Or.inl (self_mem_emit hdel))
        · exact List.mem_append.mpr (Or.inr (ih e hch2 x hx2 hdel
            (fun y hy hykey => hmax y (List.mem_cons_of_mem _ hy) hykey)))

/-- A list with pairwise-distinct keys holds at most one row per key. -/
theorem countP_key_le_one :
    ∀ l : List Entry, l.Pairwise (fun r s => r.key < s.key) →
      ∀ k : String, l.countP (fun r => r.key == k) ≤ 1 := by
  intro l
  induction l with
  | nil => intro _ k; simp
  | cons a l ih =>
      intro hp k
      obtain ⟨hal, hp2⟩ := List.pairwise_cons.mp hp
      rw [List.countP_cons]
      by_cases ha : a.key = k
      · have hzero : l.countP (fun r => r.key == k) = 0 := by
          refine List.countP_eq_zero.mpr (fun s hs => ?_)
          have : a.key < s.key := hal s hs
          simp only [beq_iff_eq]
          rw [← ha]
          exact (ne_of_gt this)
        simp [hzero, ha]
      · simp only [beq_iff_eq, ha]
        simpa using ih hp2 k

/-- The concrete scenario's entries: A/1, A/2 (both live books) and B/1
(a deleted work). -/
def entryA1 : Entry := ⟨"A", 1, false, "book", "pa1"⟩

def entryA2 : Entry := ⟨"A", 2, false, "book", "pa2"⟩

def entryB1 : Entry := ⟨"B", 1, true, "work", "pb1"⟩

/-- C3: for every sorted History Entry stream, the Latest-Version Reducer
emits at most one Dump Row per key; every emitted row is an input entry,
not deleted, and of maximum revision within its key group; every
non-deleted maximum-revision entry is emitted; hence the output key set
equals exactly the set of keys whose maximum-revision entry is live. -/
theorem C3_latest_version_reducer (es : List Entry) (hs : SortedEntries es) :
    (∀ k : String, (generate_dump es).countP (fun r => r.key == k) ≤ 1)
    ∧ (∀ r ∈ generate_dump es, r ∈ es ∧ r.deleted = false ∧
        ∀ x ∈ es, x.key = r.key → x.revision ≤ r.revision)
    ∧ (∀ x ∈ es, x.deleted = false →
        (∀ y ∈ es, y.key = x.key → y.revision ≤ x.revision) →
        x ∈ generate_dump es)
    ∧ (∀ k : String, (∃ r ∈ generate_dump es, r.key = k) ↔
        (∃ x ∈ es, x.key = k ∧ x.deleted = false ∧
          ∀ y ∈ es, y.key = x.key → y.revision ≤ x.revision)) := by
  cases es with
  | nil =>
      refine ⟨?_, ?_, ?_, ?_⟩
      · intro k; simp [generate_dump]
      · intro r hr; simp [generate_dump] at hr
      · intro x hx; simp at hx
      · intro k
        constructor
        · rintro ⟨r, hr, _⟩; simp [generate_dump] at hr
        · rintro ⟨x, hx, _⟩; simp at hx
  | cons e es =>
      have hch : (e :: es).Chain' entryLt := hs
      refine ⟨?_, ?_, ?_, ?_⟩
      · intro k
        exact countP_key_le_one _ (dumpStep_keys_sorted es e hch) k
      · intro r hr
        exact ⟨dumpStep_mem es e r hr, dumpStep_not_deleted es e r hr,
          fun x hx => dumpStep_max es e hch r hr x hx⟩
      · intro x hx hdel hmax
        exact dumpStep_complete es e hch x hx hdel hmax
      · intro k
        constructor
        · rintro ⟨r, hr, hrk⟩
          exact ⟨r, dumpStep_mem es e r hr, hrk, dumpStep_not_deleted es e r hr,
            fun x hx => dumpStep_max es e hch r hr x hx⟩
        · rintro ⟨x, hx, hxk, hdel, hmax⟩
          exact ⟨x, dumpStep_complete es e hch x hx hdel hmax, hxk⟩

/-- Witness for C3: the spec's concrete scenario.  The input
`[A/1, A/2, B/1(deleted)]` is sorted, the reducer emits exactly `[A/2]`,
at most one row carries key "A", and the live maximum-revision entry A/2 is
emitted — each fact obtained from `C3_latest_version_reducer` at this
concrete input. -/
theorem C3_latest_version_reducer_witness :
    generate_dump [entryA1, entryA2, entryB1] = [entryA2]
    ∧ (generate_dump [entryA1, entryA2, entryB1]).countP (fun r => r.key == "A") ≤ 1
    ∧ entryA2 ∈ generate_dump [entryA1, entryA2, entryB1] :=
  ⟨by decide,
   (C3_latest_version_reducer [entryA1, entryA2, entryB1] (by decide)).1 "A",
   (C3_latest_version_reducer [entryA1, entryA2, entryB1] (by decide)).2.2.1 entryA2
     (by decide) (by decide) (by decide)⟩

/-! ## Layer 2: the embedded shell pipeline (string, lines 54-229)

The shell text operates in `$TMPDIR/dumps` for one run date `yymmdd`
(month prefix `yymm`).  Artifact existence is what the `compgen -G` glob
checks inspect, so the state tracks, per artifact name, whether it is
absent, at the top level of `$TMPDIR/dumps` (where the globs look), or
packed inside the final `ol_dump_<date>/` / `ol_cdump_<date>/` directories
by the `mv` at lines 181-183. -/

/-- Where a named artifact currently lives. -/
inductive Loc
  | absent
  | top
  | packed
deriving DecidableEq, Repr

/-- Filesystem state, one field per name the script tests or writes.
`dataTop` is `$TMPDIR/data.txt.gz` (the path `cleanup` removes, line 74);
`dataDumps` is `$TMPDIR/dumps/data.txt.gz` (the raw extract the stages use,
lines 136-146, written in the working directory after `cd $TMPDIR/dumps`). -/
structure FS where
  dataTop : Bool
  dataDumps : Bool
  readingLog : Loc
  ratings : Loc
  cdumpFile : Loc
  dumpFile : Loc
  splitFiles : Loc
  dumpDir : Bool
  cdumpDir : Bool
  sitemapsDir : Bool
  oldumpsortDir : Bool
deriving DecidableEq, Repr

/-- External storage as seen through `ia list <item>`: whether the full-dump
item and the cdump item report any files. -/
structure IA where
  dumpItem : Bool
  cdumpItem : Bool
deriving DecidableEq, Repr

/-- Invocation context: `$2 == --archive` (line 195), `--overwrite` among
the arguments (line 103), the `OLDUMP_TESTING` environment switch (lines
141, 196, 222), and the number of per-type files the splitter writes
(data-dependent; it feeds the `ol_dump_*` glob match counts). -/
structure Config where
  archive : Bool
  overwrite : Bool
  testing : Bool
  nTypes : Nat
deriving DecidableEq, Repr

/-- The pipeline stage executions the script can perform (one per `time`d
command, plus the two `ia upload` calls and the sitemap generator). -/
inductive Stage
  | readingLog
  | ratings
  | rawExtract
  | cdump
  | sort
  | dump
  | split
  | uploadDump
  | uploadCdump
  | sitemap
deriving DecidableEq, Repr

/-- One `ia upload` invocation with its attached metadata and retry budget
(lines 92-93): `--metadata "collection:ol_exports" --metadata
"year:${yymm:0:4}" --metadata "format:Data" --retries 300`. -/
structure UploadCmd where
  item : String
  metadata : List (String × String)
  retries : Nat
deriving DecidableEq, Repr

/-- The upload command the `archive_dumps` shell function issues for one
item. -/
def uploadCmdFor (item : String) (yymm : String) : UploadCmd :=
  { item := item
    metadata := [("collection", "ol_exports"), ("year", yymm.take 4), ("format", "Data")]
    retries := 300 }

/-- Shell function `cleanup` (lines 73-77): `rm -f $TMPDIR/data.txt.gz` and
`rm -rf $TMPDIR/dumps/ol_*`.  Every `ol_`-prefixed name under the dumps
directory goes away; `$TMPDIR/dumps/data.txt.gz` is not `ol_`-prefixed and
is not at `$TMPDIR/data.txt.gz`, so it survives. -/
def cleanup (fs : FS) : FS :=
  { fs with
    dataTop := false
    readingLog := Loc.absent
    ratings := Loc.absent
    cdumpFile := Loc.absent
    dumpFile := Loc.absent
    splitFiles := Loc.absent
    dumpDir := false
    cdumpDir := false }

/-- Result of the `archive_dumps` shell function (lines 83-97). -/
structure ArchResult where
  ia : IA
  uploads : List UploadCmd
  stages : List Stage
deriving Repr

/-- Shell function `archive_dumps` (lines 83-97): the query `is_uploaded=$(ia list $dump | wc -l)`
inspects only the full-dump item; when it reports zero lines, both the dump
and the cdump are uploaded (each marking its item present), otherwise the
function logs "Skipping" and uploads nothing. -/
def archive_dumps (yymmdd yymm : String) (ia : IA) : ArchResult :=
  if ia.dumpItem = false then
    { ia := { dumpItem := true, cdumpItem := true }
      uploads := [uploadCmdFor ("ol_dump_" ++ yymmdd) yymm,
                  uploadCmdFor ("ol_cdump_" ++ yymmdd) yymm]
      stages := [Stage.uploadDump, Stage.uploadCdump] }
  else
    { ia := ia, uploads := [], stages := [] }

/-- Reading-log stage (lines 118-124): run unless
`ol_dump_reading-log_<yymm>*.txt.gz` is a top-level file. -/
def stepReadingLog (fs : FS) : FS × List Stage :=
  if fs.readingLog = Loc.top then (fs, [])
  else ({ fs with readingLog := Loc.top }, [Stage.readingLog])

/-- Ratings stage (lines 127-133). -/
def stepRatings (fs : FS) : FS × List Stage :=
  if fs.ratings = Loc.top then (fs, [])
  else ({ fs with ratings := Loc.top }, [Stage.ratings])

/-- Raw extract stage (lines 136-146): if `data.txt.gz` is absent the psql
copy runs, but only when `OLDUMP_TESTING` is unset (line 141); in testing
mode a pre-existing `data.txt.gz` is reused and none is created. -/
def stepData (cfg : Config) (fs : FS) : FS × List Stage :=
  if fs.dataDumps then (fs, [])
  else if cfg.testing then (fs, [])
  else ({ fs with dataDumps := true }, [Stage.rawExtract])

/-- CDump stage (lines 149-158): run unless `ol_cdump_<yymm>*.txt.gz` is a
top-level file. -/
def stepCdump (fs : FS) : FS × List Stage :=
  if fs.cdumpFile = Loc.top then (fs, [])
  else ({ fs with cdumpFile := Loc.top }, [Stage.cdump])

/-- How many top-level names a glob collects from the tracked artifacts. -/
def locCount (l : Loc) (n : Nat) : Nat :=
  if l = Loc.top then n else 0

/-- Top-level matches of the glob `ol_dump_*.txt.gz` (line 161): the
reading-log file, the ratings file, the full dump file and every per-type
split file all match it. -/
def dumpGlobCount (cfg : Config) (fs : FS) : Nat :=
  locCount fs.readingLog 1 + locCount fs.ratings 1 + locCount fs.dumpFile 1 +
    locCount fs.splitFiles cfg.nTypes

/-- Sort+dump stage (lines 161-168): `[[ ! -f $(compgen -G
"ol_dump_*.txt.gz") ]]` is false — and the stage skipped — exactly when the
glob yields a single existing file; zero matches give `-f ""` (false) and
two or more matches give `-f` a newline-joined block (also false), so the
pipeline `oldump.py sort | oldump.py dump` runs in both of those cases. -/
def stepDump (cfg : Config) (fs : FS) : FS × List Stage :=
  if dumpGlobCount cfg fs = 1 then (fs, [])
  else ({ fs with dumpFile := Loc.top }, [Stage.sort, Stage.dump])

/-- Top-level matches of the glob `ol_dump_*_<yymm>*.txt.gz` (line 171):
the reading-log and ratings files match (their extra name segment supplies
the inner `_`), as do the per-type files; `ol_dump_<date>.txt.gz` has no
second underscore segment and does not. -/
def splitGlobCount (cfg : Config) (fs : FS) : Nat :=
  locCount fs.readingLog 1 + locCount fs.ratings 1 + locCount fs.splitFiles cfg.nTypes

/-- Split stage (lines 171-179): same single-match skip convention; when it
runs it writes the per-type files and removes the `oldumpsort` scratch
directory (line 176). -/
def stepSplit (cfg : Config) (fs : FS) : FS × List Stage :=
  if splitGlobCount cfg fs = 1 then (fs, [])
  else ({ fs with splitFiles := Loc.top, oldumpsortDir := false }, [Stage.split])

/-- Packing move (lines 181-183): `mkdir -p $dump $cdump`, then every
top-level `ol_dump_*.txt.gz` goes into the dump directory and
`$cdump.txt.gz` into the cdump directory. -/
def mvPack (l : Loc) : Loc :=
  if l = Loc.top then Loc.packed else l

/-- End of the generation block (lines 181-185). -/
def stepMv (fs : FS) : FS :=
  { fs with
    readingLog := mvPack fs.readingLog
    ratings := mvPack fs.ratings
    dumpFile := mvPack fs.dumpFile
    splitFiles := mvPack fs.splitFiles
    cdumpFile := mvPack fs.cdumpFile
    dumpDir := true
    cdumpDir := true }

/-- The whole generation block body (lines 117-185), in source order. -/
def runGen (cfg : Config) (fs : FS) : FS × List Stage :=
  let r1 := stepReadingLog fs
  let r2 := stepRatings r1.1
  let r3 := stepData cfg r2.1
  let r4 := stepCdump r3.1
  let r5 := stepDump cfg r4.1
  let r6 := stepSplit cfg r5.1
  (stepMv r6.1, r1.2 ++ r2.2 ++ r3.2 ++ r4.2 ++ r5.2 ++ r6.2)

/-- Outer month checkpoint (line 114): `[[ ! -d $(compgen -G
"ol_cdump_$yymm*") ]]`.  The glob collects the cdump directory and any
top-level `ol_cdump_*` file; `-d` holds — and generation is skipped — only
when the single match is the directory (with a top-level cdump file also
present the substitution is a two-line block, which is not a directory). -/
def skipGen (fs : FS) : Bool :=
  fs.cdumpDir && !(fs.cdumpFile = Loc.top)

/-- Generation phase (lines 113-188). -/
def genPhase (cfg : Config) (fs : FS) : FS × List Stage :=
  if skipGen fs then (fs, []) else runGen cfg fs

/-- Archival phase (lines 194-199): only when the caller passed
`--archive` and `OLDUMP_TESTING` is unset. -/
def archPhase (cfg : Config) (yymmdd yymm : String) (ia : IA) : ArchResult :=
  if cfg.archive && !cfg.testing then archive_dumps yymmdd yymm ia
  else { ia := ia, uploads := [], stages := [] }

/-- Sitemap phase (lines 204-214): runs whenever `$TMPDIR/sitemaps` is
absent, and removes that directory again at line 210, so its checkpoint
never survives the run. -/
def sitePhase (fs : FS) : FS × List Stage :=
  if fs.sitemapsDir then (fs, [])
  else ({ fs with sitemapsDir := false }, [Stage.sitemap])

/-- Final block (lines 219-228): guarded by `[[ -z $OLDUMP_TESTING ]]`; the
taken branch only echoes — the removal commands in it are comments in the
source — so no file is removed in either mode. -/
def finalCleanup (testing : Bool) (fs : FS) : FS :=
  if testing then fs else fs

/-- Outcome of one invocation of the embedded shell pipeline. -/
structure RunResult where
  fs : FS
  ia : IA
  stages : List Stage
  uploads : List UploadCmd
deriving Repr

/-- One invocation of the embedded shell pipeline (lines 99-228):
optional `cleanup` on `--overwrite` (lines 103-107), generation block,
archival guard, sitemap block, final (no-op) cleanup block. -/
def runScript (cfg : Config) (yymmdd yymm : String) (fs : FS) (ia : IA) : RunResult :=
  let fs1 := if cfg.overwrite then cleanup fs else fs
  let g := genPhase cfg fs1
  let a := archPhase cfg yymmdd yymm ia
  let s := sitePhase g.1
  { fs := finalCleanup cfg.testing s.1
    ia := a.ia
    stages := g.2 ++ a.stages ++ s.2
    uploads := a.uploads }

/-- The empty dumps directory: the state of a first-ever run. -/
def fs0 : FS :=
  { dataTop := false, dataDumps := false, readingLog := Loc.absent,
    ratings := Loc.absent, cdumpFile := Loc.absent, dumpFile := Loc.absent,
    splitFiles := Loc.absent, dumpDir := false, cdumpDir := false,
    sitemapsDir := false, oldumpsortDir := false }

/-- External storage with neither item present. -/
def ia0 : IA := { dumpItem := false, cdumpItem := false }

/-- A plain production invocation: no archive, no overwrite, no testing,
two record types in the data. -/
def cfg0 : Config := { archive := false, overwrite := false, testing := false, nTypes := 2 }

/-! ### Lemmas about the shell model -/

theorem mvPack_ne_top (l : Loc) : mvPack l ≠ Loc.top := by
  unfold mvPack
  split
  · intro h; cases h
  · assumption

theorem finalCleanup_id (t : Bool) (fs : FS) : finalCleanup t fs = fs := by
  unfold finalCleanup
  split <;> rfl

theorem skipGen_sitePhase (fs : FS) : skipGen (sitePhase fs).1 = skipGen fs := by
  unfold sitePhase
  split <;> rfl

theorem skipGen_genPhase (cfg : Config) (fs : FS) : skipGen ((genPhase cfg fs).1) = true := by
  unfold genPhase
  by_cases h : skipGen fs = true
  · rw [if_pos h]; exact h
  · rw [if_neg h]
    show skipGen (stepMv _) = true
    unfold skipGen stepMv
    simp [mvPack_ne_top]

/-- The month checkpoint holds in the state any invocation leaves behind. -/
theorem runScript_skipGen (cfg : Config) (d m : String) (fs : FS) (ia : IA) :
    skipGen ((runScript cfg d m fs ia).fs) = true := by
  show skipGen (finalCleanup _ (sitePhase ((genPhase cfg _).1)).1) = true
  rw [finalCleanup_id, skipGen_sitePhase, skipGen_genPhase]

theorem archive_dumps_dumpItem (d m : String) (ia : IA) :
    ((archive_dumps d m ia).ia).dumpItem = true := by
  cases hb : ia.dumpItem <;> simp [archive_dumps, hb]

theorem archive_dumps_skip (d m : String) (ia : IA) (h : ia.dumpItem = true) :
    archive_dumps d m ia = { ia := ia, uploads := [], stages := [] } := by
  unfold archive_dumps
  rw [if_neg (by simp [h])]

theorem sitePhase_stages (fs : FS) :
    (sitePhase fs).2 = [] ∨ (sitePhase fs).2 = [Stage.sitemap] := by
  unfold sitePhase
  split
  · exact Or.inl rfl
  · exact Or.inr rfl

theorem runScript_ia (cfg : Config) (d m : String) (fs : FS) (ia : IA) :
    (runScript cfg d m fs ia).ia = (archPhase cfg d m ia).ia := rfl

theorem archPhase_dumpItem (cfg : Config) (d m : String) (ia : IA)
    (h : (cfg.archive && !cfg.testing) = true) :
    ((archPhase cfg d m ia).ia).dumpItem = true := by
  unfold archPhase
  rw [if_pos h]
  exact archive_dumps_dumpItem d m ia

theorem runScript_stages (cfg : Config) (d m : String) (fs : FS) (ia : IA) :
    (runScript cfg d m fs ia).stages =
      (genPhase cfg (if cfg.overwrite then cleanup fs else fs)).2 ++
      (archPhase cfg d m ia).stages ++
      (sitePhase ((genPhase cfg (if cfg.overwrite then cleanup fs else fs)).1)).2 := rfl

theorem genPhase_stages_of_skip (cfg : Config) (fs : FS) (h : skipGen fs = true) :
    (genPhase cfg fs).2 = [] := by
  unfold genPhase
  rw [if_pos h]

/-- C2 counterexample: from a fresh state, a second identical invocation
(no overwrite) still performs a stage execution — the claimed second-run
stage list is not empty. -/
theorem C2_second_run_not_idempotent :
    ¬ ((runScript cfg0 "2021-11-01" "2021-11"
          (runScript cfg0 "2021-11-01" "2021-11" fs0 ia0).fs
          (runScript cfg0 "2021-11-01" "2021-11" fs0 ia0).ia).stages = []) := by
  decide

/-- C2 amended: with no overwrite flag, a second identical invocation
skips every generation stage (the month checkpoint survives) and performs
no upload; the only stage it can execute is the Sitemap stage, whose
checkpoint directory the stage itself removes at the end of every run. -/
theorem C2_amended_second_run (cfg : Config) (d m : String) (fs : FS) (ia : IA)
    (hov : cfg.overwrite = false) :
    ((runScript cfg d m (runScript cfg d m fs ia).fs
        (runScript cfg d m fs ia).ia).stages).all
      (fun s => s == Stage.sitemap) = true := by
  have h1 : skipGen ((runScript cfg d m fs ia).fs) = true := runScript_skipGen cfg d m fs ia
  rw [runScript_stages]
  have hfs2 : (if cfg.overwrite then cleanup ((runScript cfg d m fs ia).fs)
      else ((runScript cfg d m fs ia).fs)) = (runScript cfg d m fs ia).fs := by
    simp [hov]
  rw [hfs2, genPhase_stages_of_skip cfg _ h1]
  have harchstages : (archPhase cfg d m (runScript cfg d m fs ia).ia).stages = [] := by
    by_cases harch : (cfg.archive && !cfg.testing) = true
    · have hitem : ((runScript cfg d m fs ia).ia).dumpItem = true := by
        rw [runScript_ia]
        exact archPhase_dumpItem cfg d m ia harch
      unfold archPhase
      rw [if_pos harch, archive_dumps_skip d m _ hitem]
    · unfold archPhase
      rw [if_neg harch]
  rw [harchstages]
  rcases sitePhase_stages ((genPhase cfg (runScript cfg d m fs ia).fs).1) with h | h <;>
    rw [h] <;> rfl

/-- Witness for C2's amended claim at the fresh-state invocation. -/
theorem C2_amended_second_run_witness :
    ((runScript cfg0 "2021-11-01" "2021-11"
        (runScript cfg0 "2021-11-01" "2021-11" fs0 ia0).fs
        (runScript cfg0 "2021-11-01" "2021-11" fs0 ia0).ia).stages).all
      (fun s => s == Stage.sitemap) = true :=
  C2_amended_second_run cfg0 "2021-11-01" "2021-11" fs0 ia0 rfl

/-- C4: when the existence query (`ia list` on the full-dump item) reports
the target item already present, `archive_dumps` performs zero uploads,
leaves external storage untouched and returns normally (the skip is logged,
not an error). -/
theorem C4_archiver_skip_is_idempotent (d m : String) (ia : IA)
    (h : ia.dumpItem = true) :
    (archive_dumps d m ia).uploads = [] ∧
    (archive_dumps d m ia).stages = [] ∧
    (archive_dumps d m ia).ia = ia := by
  rw [archive_dumps_skip d m ia h]
  exact ⟨rfl, rfl, rfl⟩

/-- Witness for C4: both items already archived. -/
theorem C4_archiver_skip_is_idempotent_witness :
    (archive_dumps "2021-11-01" "2021-11" { dumpItem := true, cdumpItem := true }).uploads = [] ∧
    (archive_dumps "2021-11-01" "2021-11" { dumpItem := true, cdumpItem := true }).stages = [] ∧
    (archive_dumps "2021-11-01" "2021-11" { dumpItem := true, cdumpItem := true }).ia =
      { dumpItem := true, cdumpItem := true } :=
  C4_archiver_skip_is_idempotent "2021-11-01" "2021-11" { dumpItem := true, cdumpItem := true } rfl

/-- C6: every upload `archive_dumps` issues attaches exactly the metadata
fields `collection`, `year` and `format`, and carries the fixed retry
budget 300 — a bound on the order of hundreds of attempts. -/
theorem C6_upload_metadata_and_retries (d m : String) (ia : IA) :
    ∀ u ∈ (archive_dumps d m ia).uploads,
      u.metadata.map Prod.fst = ["collection", "year", "format"] ∧
      u.retries = 300 ∧ 100 ≤ u.retries ∧ u.retries ≤ 999 := by
  intro u hu
  unfold archive_dumps at hu
  split at hu
  · rcases List.mem_cons.mp hu with h | h
    · rw [h]
      exact ⟨rfl, rfl, by norm_num [uploadCmdFor], by norm_num [uploadCmdFor]⟩
    · rcases List.mem_cons.mp h with h2 | h2
      · rw [h2]
        exact ⟨rfl, rfl, by norm_num [uploadCmdFor], by norm_num [uploadCmdFor]⟩
      · cases h2
  · cases hu

/-- Witness for C6: the full-dump upload of a fresh archival run. -/
theorem C6_upload_metadata_and_retries_witness :
    (uploadCmdFor ("ol_dump_" ++ "2021-11-01") "2021-11").metadata.map Prod.fst =
      ["collection", "year", "format"] ∧
    (uploadCmdFor ("ol_dump_" ++ "2021-11-01") "2021-11").retries = 300 ∧
    100 ≤ (uploadCmdFor ("ol_dump_" ++ "2021-11-01") "2021-11").retries ∧
    (uploadCmdFor ("ol_dump_" ++ "2021-11-01") "2021-11").retries ≤ 999 :=
  C6_upload_metadata_and_retries "2021-11-01" "2021-11" ia0
    (uploadCmdFor ("ol_dump_" ++ "2021-11-01") "2021-11") (by decide)

/-- C10: the existence query inspects only the full-dump item name, so the
cdump is uploaded exactly when the full-dump item is absent — in
particular, when the dump item exists but the cdump item does not, no
cdump upload happens. -/
theorem C10_existence_query_only_dump (d m : String) (ia : IA) :
    ((archive_dumps d m ia).uploads.any (fun u => u.item == "ol_cdump_" ++ d))
      = !ia.dumpItem ∧
    (archive_dumps d m { dumpItem := true, cdumpItem := false }).uploads = [] := by
  constructor
  · cases hb : ia.dumpItem <;> simp [archive_dumps, hb, uploadCmdFor]
  · rw [archive_dumps_skip d m _ rfl]

/-! ### Artifact preservation (frame condition for C5/C7) -/

/-- Relation `Preserves fs fs2`: every artifact present in `fs` is still present in
`fs2` (files may move into the final directories, but none disappears). -/
def Preserves (fs fs2 : FS) : Prop :=
  (fs.dataDumps = true → fs2.dataDumps = true) ∧
  (fs.dataTop = true → fs2.dataTop = true) ∧
  (fs.readingLog ≠ Loc.absent → fs2.readingLog ≠ Loc.absent) ∧
  (fs.ratings ≠ Loc.absent → fs2.ratings ≠ Loc.absent) ∧
  (fs.cdumpFile ≠ Loc.absent → fs2.cdumpFile ≠ Loc.absent) ∧
  (fs.dumpFile ≠ Loc.absent → fs2.dumpFile ≠ Loc.absent) ∧
  (fs.splitFiles ≠ Loc.absent → fs2.splitFiles ≠ Loc.absent) ∧
  (fs.dumpDir = true → fs2.dumpDir = true) ∧
  (fs.cdumpDir = true → fs2.cdumpDir = true) ∧
  (fs.sitemapsDir = true → fs2.sitemapsDir = true)

theorem preserves_refl (fs : FS) : Preserves fs fs :=
  ⟨id, id, id, id, id, id, id, id, id, id⟩

theorem preserves_trans {a b c : FS} (h1 : Preserves a b) (h2 : Preserves b c) :
    Preserves a c := by
  obtain ⟨a1, a2, a3, a4, a5, a6, a7, a8, a9, a10⟩ := h1
  obtain ⟨b1, b2, b3, b4, b5, b6, b7, b8, b9, b10⟩ := h2
  exact ⟨b1 ∘ a1, b2 ∘ a2, b3 ∘ a3, b4 ∘ a4, b5 ∘ a5, b6 ∘ a6, b7 ∘ a7,
    b8 ∘ a8, b9 ∘ a9, b10 ∘ a10⟩

theorem mvPack_ne_absent {l : Loc} (h : l ≠ Loc.absent) : mvPack l ≠ Loc.absent := by
  unfold mvPack
  split
  · intro hc; cases hc
  · exact h

theorem stepReadingLog_preserves (fs : FS) : Preserves fs (stepReadingLog fs).1 := by
  unfold stepReadingLog
  split
  · exact preserves_refl fs
  · exact ⟨id, id, fun _ => (by decide : Loc.top ≠ Loc.absent), id, id, id, id, id, id, id⟩

theorem stepRatings_preserves (fs : FS) : Preserves fs (stepRatings fs).1 := by
  unfold stepRatings
  split
  · exact preserves_refl fs
  · exact ⟨id, id, id, fun _ => (by decide : Loc.top ≠ Loc.absent), id, id, id, id, id, id⟩

theorem stepData_preserves (cfg : Config) (fs : FS) : Preserves fs (stepData cfg fs).1 := by
  unfold stepData
  split
  · exact preserves_refl fs
  · split
    · exact preserves_refl fs
    · exact ⟨fun _ => rfl, id, id, id, id, id, id, id, id, id⟩

theorem stepCdump_preserves (fs : FS) : Preserves fs (stepCdump fs).1 := by
  unfold stepCdump
  split
  · exact preserves_refl fs
  · exact ⟨id, id, id, id, fun _ => (by decide : Loc.top ≠ Loc.absent), id, id, id, id, id⟩

theorem stepDump_preserves (cfg : Config) (fs : FS) : Preserves fs (stepDump cfg fs).1 := by
  unfold stepDump
  split
  · exact preserves_refl fs
  · exact ⟨id, id, id, id, id, fun _ => (by decide : Loc.top ≠ Loc.absent), id, id, id, id⟩

theorem stepSplit_preserves (cfg : Config) (fs : FS) : Preserves fs (stepSplit cfg fs).1 := by
  unfold stepSplit
  split
  · exact preserves_refl fs
  · exact ⟨id, id, id, id, id, id, fun _ => (by decide : Loc.top ≠ Loc.absent), id, id, id⟩

theorem stepMv_preserves (fs : FS) : Preserves fs (stepMv fs) :=
  ⟨id, id, fun h => mvPack_ne_absent h, fun h => mvPack_ne_absent h,
   fun h => mvPack_ne_absent h, fun h => mvPack_ne_absent h,
   fun h => mvPack_ne_absent h, fun _ => rfl, fun _ => rfl, id⟩

theorem runGen_preserves (cfg : Config) (fs : FS) : Preserves fs (runGen cfg fs).1 := by
  show Preserves fs (stepMv (stepSplit cfg (stepDump cfg (stepCdump
    (stepData cfg (stepRatings (stepReadingLog fs).1).1).1).1).1).1)
  exact preserves_trans (stepReadingLog_preserves fs)
    (preserves_trans (stepRatings_preserves _)
      (preserves_trans (stepData_preserves cfg _)
        (preserves_trans (stepCdump_preserves _)
          (preserves_trans (stepDump_preserves cfg _)
            (preserves_trans (stepSplit_preserves cfg _)
              (stepMv_preserves _))))))

theorem genPhase_preserves (cfg : Config) (fs : FS) : Preserves fs (genPhase cfg fs).1 := by
  unfold genPhase
  split
  · exact preserves_refl fs
  · exact runGen_preserves cfg fs

theorem sitePhase_preserves (fs : FS) : Preserves fs (sitePhase fs).1 := by
  unfold sitePhase
  split
  · exact preserves_refl fs
  · next h => exact ⟨id, id, id, id, id, id, id, id, id, fun ht => absurd ht h⟩

/-- Without the overwrite flag, a whole invocation never deletes an
artifact. -/
theorem runScript_preserves (cfg : Config) (d m : String) (fs : FS) (ia : IA)
    (hov : cfg.overwrite = false) :
    Preserves fs (runScript cfg d m fs ia).fs := by
  show Preserves fs (finalCleanup _
    (sitePhase ((genPhase cfg (if cfg.overwrite then cleanup fs else fs)).1)).1)
  rw [finalCleanup_id]
  have hif : (if cfg.overwrite then cleanup fs else fs) = fs := by simp [hov]
  rw [hif]
  exact preserves_trans (genPhase_preserves cfg fs) (sitePhase_preserves _)

/-- A state holding a completed raw extract in the dumps directory. -/
def fsData : FS := { fs0 with dataDumps := true }

/-- An invocation with the overwrite flag. -/
def cfgOverwrite : Config :=
  { archive := false, overwrite := true, testing := false, nTypes := 2 }

/-- C5 counterexample: with `--overwrite`, the prior raw-extract artifact
`$TMPDIR/dumps/data.txt.gz` is NOT deleted (`cleanup` removes
`$TMPDIR/data.txt.gz` and `$TMPDIR/dumps/ol_*` only), and the subsequent
run then skips the RawExtract stage, reusing the supposedly purged file. -/
theorem C5_overwrite_misses_raw_extract :
    (cleanup fsData).dataDumps = true ∧
    Stage.rawExtract ∉ (runScript cfgOverwrite "2021-11-01" "2021-11" fsData ia0).stages := by
  decide

/-- C5 amended: with overwrite, `cleanup` runs before any stage and deletes
every `ol_`-prefixed artifact (all dump files and directories) and the
top-level `data.txt.gz`, but leaves the raw database extract
`dumps/data.txt.gz` untouched; without the overwrite flag, every
pre-existing artifact is preserved by the whole run (only skipped, reused,
or moved into the final directories). -/
theorem C5_amended_overwrite_cleanup (cfg : Config) (d m : String) (fs : FS) (ia : IA) :
    ((cleanup fs).readingLog = Loc.absent ∧ (cleanup fs).ratings = Loc.absent ∧
     (cleanup fs).cdumpFile = Loc.absent ∧ (cleanup fs).dumpFile = Loc.absent ∧
     (cleanup fs).splitFiles = Loc.absent ∧ (cleanup fs).dumpDir = false ∧
     (cleanup fs).cdumpDir = false ∧ (cleanup fs).dataTop = false ∧
     (cleanup fs).dataDumps = fs.dataDumps) ∧
    (cfg.overwrite = false → Preserves fs (runScript cfg d m fs ia).fs) :=
  ⟨⟨rfl, rfl, rfl, rfl, rfl, rfl, rfl, rfl, rfl⟩,
   fun hov => runScript_preserves cfg d m fs ia hov⟩

/-- Witness for C5's amended claim: a no-overwrite run keeps an existing
raw extract in place. -/
theorem C5_amended_overwrite_cleanup_witness :
    (runScript cfg0 "2021-11-01" "2021-11" fsData ia0).fs.dataDumps = true :=
  ((C5_amended_overwrite_cleanup cfg0 "2021-11-01" "2021-11" fsData ia0).2 rfl).1 rfl

/-! ### Testing-mode behavior (C7) -/

theorem stepReadingLog_dataDumps (fs : FS) :
    ((stepReadingLog fs).1).dataDumps = fs.dataDumps := by
  unfold stepReadingLog; split <;> rfl

theorem stepRatings_dataDumps (fs : FS) :
    ((stepRatings fs).1).dataDumps = fs.dataDumps := by
  unfold stepRatings; split <;> rfl

theorem stepData_testing_dataDumps (cfg : Config) (fs : FS) (ht : cfg.testing = true) :
    ((stepData cfg fs).1).dataDumps = fs.dataDumps := by
  unfold stepData
  split
  · rfl
  · rfl

theorem stepCdump_dataDumps (fs : FS) :
    ((stepCdump fs).1).dataDumps = fs.dataDumps := by
  unfold stepCdump; split <;> rfl

theorem stepDump_dataDumps (cfg : Config) (fs : FS) :
    ((stepDump cfg fs).1).dataDumps = fs.dataDumps := by
  unfold stepDump; split <;> rfl

theorem stepSplit_dataDumps (cfg : Config) (fs : FS) :
    ((stepSplit cfg fs).1).dataDumps = fs.dataDumps := by
  unfold stepSplit; split <;> rfl

theorem stepMv_dataDumps (fs : FS) : (stepMv fs).dataDumps = fs.dataDumps := rfl

theorem runGen_testing_dataDumps (cfg : Config) (fs : FS) (ht : cfg.testing = true) :
    ((runGen cfg fs).1).dataDumps = fs.dataDumps := by
  show (stepMv (stepSplit cfg (stepDump cfg (stepCdump
    (stepData cfg (stepRatings (stepReadingLog fs).1).1).1).1).1).1).dataDumps = fs.dataDumps
  rw [stepMv_dataDumps, stepSplit_dataDumps, stepDump_dataDumps, stepCdump_dataDumps,
    stepData_testing_dataDumps cfg _ ht, stepRatings_dataDumps, stepReadingLog_dataDumps]

theorem genPhase_testing_dataDumps (cfg : Config) (fs : FS) (ht : cfg.testing = true) :
    ((genPhase cfg fs).1).dataDumps = fs.dataDumps := by
  unfold genPhase
  split
  · rfl
  · exact runGen_testing_dataDumps cfg fs ht

theorem sitePhase_dataDumps (fs : FS) :
    ((sitePhase fs).1).dataDumps = fs.dataDumps := by
  unfold sitePhase; split <;> rfl

theorem cleanup_dataDumps (fs : FS) : (cleanup fs).dataDumps = fs.dataDumps := rfl

/-- C7: with the `OLDUMP_TESTING` environment switch active, no archival
upload happens (even when `--archive` was requested: the guard at lines
195-198 requires the switch unset), external storage is untouched, the raw
database extract survives the run, and the end-of-run cleanup block is a
no-op on the filesystem. -/
theorem C7_testing_suppresses_archive_and_cleanup
    (cfg : Config) (d m : String) (fs : FS) (ia : IA) (ht : cfg.testing = true) :
    (runScript cfg d m fs ia).uploads = [] ∧
    (runScript cfg d m fs ia).ia = ia ∧
    ((runScript cfg d m fs ia).fs).dataDumps = fs.dataDumps ∧
    finalCleanup cfg.testing fs = fs := by
  have hguard : (cfg.archive && !cfg.testing) = false := by
    rw [ht]; simp
  refine ⟨?_, ?_, ?_, finalCleanup_id _ _⟩
  · show (archPhase cfg d m ia).uploads = []
    unfold archPhase
    rw [if_neg (by rw [hguard]; exact Bool.false_ne_true)]
  · show (archPhase cfg d m ia).ia = ia
    unfold archPhase
    rw [if_neg (by rw [hguard]; exact Bool.false_ne_true)]
  · show (finalCleanup _ ((sitePhase ((genPhase cfg
        (if cfg.overwrite then cleanup fs else fs)).1)).1)).dataDumps = fs.dataDumps
    rw [finalCleanup_id, sitePhase_dataDumps, genPhase_testing_dataDumps cfg _ ht]
    by_cases hov : cfg.overwrite = true
    · rw [if_pos hov, cleanup_dataDumps]
    · rw [if_neg hov]

/-- Witness for C7: a testing run that even requests `--archive` uploads
nothing and keeps the raw extract. -/
theorem C7_testing_suppresses_archive_and_cleanup_witness :
    (runScript { archive := true, overwrite := false, testing := true, nTypes := 2 }
        "2021-11-01" "2021-11" fsData ia0).uploads = [] ∧
    (runScript { archive := true, overwrite := false, testing := true, nTypes := 2 }
        "2021-11-01" "2021-11" fsData ia0).ia = ia0 ∧
    ((runScript { archive := true, overwrite := false, testing := true, nTypes := 2 }
        "2021-11-01" "2021-11" fsData ia0).fs).dataDumps = fsData.dataDumps ∧
    finalCleanup ({ archive := true, overwrite := false, testing := true, nTypes := 2 } : Config).testing
      fsData = fsData :=
  C7_testing_suppresses_archive_and_cleanup
    { archive := true, overwrite := false, testing := true, nTypes := 2 }
    "2021-11-01" "2021-11" fsData ia0 rfl

/-! ## Layer 3: the Python entry point of `scripts/oldump.py` -/

/-- The Python errors relevant to the entry point. -/
inductive PyError
  | syntaxError
  | attributeError
  | nameError
deriving DecidableEq, Repr

/-- Observable outcome of invoking `python3 scripts/oldump.py <argv>`. -/
structure PyRun where
  exitCode : Nat
  err : Option PyError
  stages : List Stage
  uploads : List UploadCmd
deriving DecidableEq, Repr

/-- Invoking the script directly.  `credsPresent` models whether the
archival credentials file `/olsystem/etc/ia.ini` exists on the host; `argv`
is the command line after the script name.  CPython compiles the whole
module before executing any statement, and compilation fails: line 277,
`working_dir = Path("/1/temp/" ia_cofig_file.exists() else
"/openlibrary/dumps")`, is a conditional expression missing its `if`, and
line 282, `if args.use_existing and`, breaks off mid-expression.  The
interpreter therefore raises `SyntaxError` and exits with status 1 having
executed nothing: no argument parsing, no credentials check, no stage, no
upload, no cleanup — regardless of `argv` or the environment. -/
def runOldumpPy (credsPresent : Bool) (argv : List String) : PyRun :=
  { exitCode := 1
    err := some PyError.syntaxError
    stages := []
    uploads := [] }

/-- Declaration `def main() -> int:` (line 275) has zero parameters. -/
def mainParamCount : Nat := 0

/-- Call `main(sys.argv[1], sys.argv[2:])` (line 312) passes two arguments. -/
def mainCallArgCount : Nat := 2

/-- The module-level imports (lines 33-44). -/
def oldumpImports : List String :=
  ["argparse", "logging", "sys", "datetime", "pathlib", "subprocess",
   "_init_path", "infogami", "openlibrary.config", "openlibrary.utils.sentry"]

/-- Line 304 reads `os.getenv("OL_CONFIG")`, though `os` is never
imported. -/
def osReferenced : Bool := true

/-- The method line 279 calls on `datetime.date`; no such attribute exists
(the intended name is `strptime`). -/
def dateMethodCalled : String := "strpstr"

/-- A well-formed `yyyy-mm-dd` run date: four digits, dash, two digits
giving a month 1-12, dash, two digits giving a day 1-31. -/
def isValidRunDate (s : String) : Bool :=
  match s.toList with
  | [a, b, c, d, e, f, g, h, i, j] =>
      a.isDigit && b.isDigit && c.isDigit && d.isDigit && (e == '-') &&
      f.isDigit && g.isDigit && (h == '-') && i.isDigit && j.isDigit &&
      (1 ≤ 10 * (f.toNat - 48) + (g.toNat - 48)) &&
      (10 * (f.toNat - 48) + (g.toNat - 48) ≤ 12) &&
      (1 ≤ 10 * (i.toNat - 48) + (j.toNat - 48)) &&
      (10 * (i.toNat - 48) + (j.toNat - 48) ≤ 31)
  | _ => false

/-- C1: a configuration error — `--archive` requested while the archival
credentials file is absent, or a malformed run date — is fatal with no
retry: the invocation ends in an error with no pipeline stage executed.
(In the source as written this holds for every invocation: the module
fails to compile, so the run always aborts before any stage; the
credentials check at lines 280-281 and the date parse at line 279 are
never even reached.) -/
theorem C1_config_error_fatal (argv : List String) (creds : Bool)
    (h : (argv.contains "--archive" = true ∧ creds = false) ∨
         isValidRunDate (argv.headD "") = false) :
    (runOldumpPy creds argv).err = some PyError.syntaxError ∧
    (runOldumpPy creds argv).exitCode ≠ 0 ∧
    (runOldumpPy creds argv).stages = [] :=
  ⟨rfl, Nat.one_ne_zero, rfl⟩

/-- Witness for C1: an invocation with an invalid run date (month 13). -/
theorem C1_config_error_fatal_witness :
    ((["2021-13-99"].contains "--archive" = true ∧ false = false) ∨
      isValidRunDate (["2021-13-99"].headD "") = false) ∧
    ((runOldumpPy false ["2021-13-99"]).err = some PyError.syntaxError ∧
     (runOldumpPy false ["2021-13-99"]).exitCode ≠ 0 ∧
     (runOldumpPy false ["2021-13-99"]).stages = []) :=
  ⟨Or.inr (by decide),
   C1_config_error_fatal ["2021-13-99"] false (Or.inr (by decide))⟩

/-- C8 (supporting the code-bug verdict): the process exit status is 1 —
never zero — on every invocation, with no stage executed or skipped, so
the claimed "zero exactly when all stages completed or were validly
skipped" behavior is unrealizable in the code as written. -/
theorem C8_exit_status_never_zero (creds : Bool) (argv : List String) :
    (runOldumpPy creds argv).exitCode = 1 ∧
    (runOldumpPy creds argv).exitCode ≠ 0 ∧
    (runOldumpPy creds argv).uploads = [] :=
  ⟨rfl, Nat.one_ne_zero, rfl⟩

/-- C9: no pipeline stage, archival upload or cleanup is reachable from the
script's direct entry point: the module does not compile (line 277 lacks
the `if` of its conditional expression and line 282 is truncated), and even
past that, `main()` takes no parameters yet line 312 calls it with two,
line 279 calls the nonexistent `date.strpstr`, and line 304 references `os`
which the module never imports. -/
theorem C9_entry_point_dead (creds : Bool) (argv : List String) :
    (runOldumpPy creds argv).err = some PyError.syntaxError ∧
    (runOldumpPy creds argv).exitCode = 1 ∧
    (runOldumpPy creds argv).stages = [] ∧
    (runOldumpPy creds argv).uploads = [] ∧
    mainParamCount ≠ mainCallArgCount ∧
    "os" ∉ oldumpImports ∧
    osReferenced = true ∧
    dateMethodCalled ≠ "strptime" :=
  ⟨rfl, rfl, rfl, rfl, by decide, by decide, rfl, by decide⟩

end OLDump
